import Mathlib

/-!
Verification of the `NativeArtifact` layer of the near-wasmer native engine
(`src/lib/engine-native/src/artifact.rs`), via a shallow embedding in Lean.

Bytes are modelled as naturals (`< 256` where it matters), byte buffers as
`List Nat`, filesystem contents and process interaction as explicit
parameters, and fallible Rust code as `Option`/`Except`.
-/

namespace NearWasmer

abbrev Byte := Nat

/-! ## LEB128 (the `leb128` crate, as used by `artifact.rs`)

`leb128::write::unsigned` emits the standard little-endian base-128 varint:
low 7 bits per byte, continuation bit `0x80` on all but the last byte.
`leb128::read::unsigned` folds the low 7 bits of each byte until a byte with
the continuation bit clear (its overflow guard never fires on a valid
encoding of a `u64`, which is all the artifact code ever reads). -/

/-- Byte sequence produced by `leb128::write::unsigned` for value `n`. -/
def lebWrite (n : Nat) : List Byte :=
  if n < 128 then [n]
  else (n % 128 + 128) :: lebWrite (n / 128)
termination_by n
decreasing_by
  exact Nat.div_lt_self (by omega) (by omega)

/-- `leb128::read::unsigned`: returns the decoded value together with the
unread remainder of the input, or `none` when the input ends inside an
encoding (the crate's `read_exact` failure). -/
def lebRead : List Byte → Option (Nat × List Byte)
  | [] => none
  | b :: rest =>
    if b < 128 then some (b, rest)
    else
      match lebRead rest with
      | some (v, r) => some ((b - 128) + 128 * v, r)
      | none => none

/-! ## The 10-byte length prefix (`NativeArtifact::new`, lines 202-206)

```rust
let mut metadata_length = vec![0; 10];
let mut writable = &mut metadata_length[..];
leb128::write::unsigned(&mut writable, serialized_data.len() as u64)
    .expect("Should write number");
metadata_length.extend(serialized_data);
```

Writing through `&mut [u8]` overwrites the front of the buffer and fails
(`write_all` reports a full buffer) if the encoding does not fit. -/

/-- Write `bs` over the front of `buf`, keeping the rest of `buf`;
`none` when `buf` is too short (the `expect("Should write number")` case). -/
def writeBytesInto : List Byte → List Byte → Option (List Byte)
  | [], buf => some buf
  | _ :: _, [] => none
  | b :: bs, _ :: buf => (writeBytesInto bs buf).map (b :: ·)

/-- The `metadata_length` buffer built in `NativeArtifact::new`: the LEB128
length written into a 10-byte zero buffer, followed by the serialized
metadata. `none` models the `expect` panic. -/
def new_metadata_length (serialized_data : List Byte) : Option (List Byte) :=
  (writeBytesInto (lebWrite serialized_data.length) (List.replicate 10 0)).map
    (· ++ serialized_data)

/-! ## Reading the metadata back
(`NativeArtifact::deserialize_from_file_unchecked`, lines 682-698)

The loader exposes the `WASMER_METADATA` storage as a `*mut [u8; 11]`, reads
the LEB128 length from those 11 bytes, and takes `metadata_len` bytes
starting at offset 10 of the storage. -/

/-- Extract the serialized-metadata bytes from the symbol storage `blob`
(the storage may extend past the 11-byte view, so `blob` stands for the
whole readable region starting at the symbol). -/
def read_metadata_bytes (blob : List Byte) : Option (List Byte) :=
  match lebRead (blob.take 11) with
  | none => none
  | some (len, _) => some ((blob.drop 10).take len)

/-! ## Magic headers and `is_deserializable` (lines 56-95) -/

def MAGIC_HEADER_MH_CIGAM_64 : List Byte := [207, 250, 237, 254]

def MAGIC_HEADER_ELF_32 : List Byte := [0x7f, 0x45, 0x4c, 0x46, 1]

def MAGIC_HEADER_ELF_64 : List Byte := [0x7f, 0x45, 0x4c, 0x46, 2]

def MAGIC_HEADER_COFF_64 : List Byte := [0x4d, 0x5a]

/-- `target_os` of the compilation host, as discriminated by the
`cfg_if!` chain. -/
inductive HostOs
  | macos
  | linux
  | windows
  | other
deriving DecidableEq, Repr

/-- `target_pointer_width` of the compilation host. -/
inductive PointerWidth
  | w32
  | w64
deriving DecidableEq, Repr

structure Host where
  os : HostOs
  width : PointerWidth
deriving DecidableEq, Repr

/-- `NativeArtifact::is_deserializable`, with the `cfg_if!` chain made
explicit over the host configuration. -/
def is_deserializable (host : Host) (bytes : List Byte) : Bool :=
  match host.width, host.os with
  | .w64, .macos => MAGIC_HEADER_MH_CIGAM_64.isPrefixOf bytes
  | .w64, .linux => MAGIC_HEADER_ELF_64.isPrefixOf bytes
  | .w32, .linux => MAGIC_HEADER_ELF_32.isPrefixOf bytes
  | .w64, .windows => MAGIC_HEADER_COFF_64.isPrefixOf bytes
  | _, _ => false

/-- The behaviour claimed for `is_deserializable`, read literally: the
Windows magic is checked on every Windows host, with no pointer-width
qualification (compare with the `cfg_if!` arm, which requires
`target_pointer_width = "64"`). -/
def spec_is_deserializable (host : Host) (bytes : List Byte) : Bool :=
  match host.width, host.os with
  | .w64, .macos => MAGIC_HEADER_MH_CIGAM_64.isPrefixOf bytes
  | .w64, .linux => MAGIC_HEADER_ELF_64.isPrefixOf bytes
  | .w32, .linux => MAGIC_HEADER_ELF_32.isPrefixOf bytes
  | _, .windows => MAGIC_HEADER_COFF_64.isPrefixOf bytes
  | _, _ => false

/-- The claim on `is_deserializable`, as amended: the Windows magic is
recognised only on 64-bit Windows hosts (spec-side definition, written
with the raw magic bytes the spec lists). -/
def spec_is_deserializable_amended (host : Host) (bytes : List Byte) : Bool :=
  match host.width, host.os with
  | .w64, .linux => [0x7f, 0x45, 0x4c, 0x46, 0x02].isPrefixOf bytes
  | .w32, .linux => [0x7f, 0x45, 0x4c, 0x46, 0x01].isPrefixOf bytes
  | .w64, .macos => [0xcf, 0xfa, 0xed, 0xfe].isPrefixOf bytes
  | .w64, .windows => [0x4d, 0x5a].isPrefixOf bytes
  | _, _ => false

/-! ## Error types (wasmer_compiler / wasmer_engine, as used here) -/

inductive CompileError
  | Wasm (msg : String)
  | Codegen (msg : String)
deriving DecidableEq, Repr

/-- `wasmer_engine::LinkError` (only the `Trap` variant is produced by this
file; the `RuntimeError` payload is its message string). -/
inductive LinkError
  | Trap (msg : String)
deriving DecidableEq, Repr

inductive InstantiationError
  | Link (e : LinkError)
deriving DecidableEq, Repr

/-- `wasmer_engine::DeserializeError`; the `Io` payload (an
`std::io::Error`) is abstracted away. -/
inductive DeserializeError
  | Io
  | Incompatible (msg : String)
  | CorruptedBinary (msg : String)
  | Compiler (e : CompileError)
deriving DecidableEq, Repr

/-! ## Data model -/

/-- A fat pointer `*mut [VMFunctionBody]`: raw address plus length. -/
structure FatPtr where
  addr : Nat
  len : Nat
deriving DecidableEq, Repr

/-- A loaded dynamic library (`libloading::Library`): symbol-address lookup
plus the bytes stored at `WASMER_METADATA` (`none` when that symbol is
missing). -/
structure Library where
  symbols : String → Option Nat
  wasmerMetadata : Option (List Byte)

/-- An abstract wasm function type (`FunctionType`). -/
structure FuncType where
  id : Nat
deriving DecidableEq, Repr

/-- The fields of `CompileModuleInfo` (and the `ModuleInfo` inside it) that
the artifact layer reads: the number of imported functions, the total size
of `module.functions` (imported functions come first in its key order), and
the signature table. -/
structure CompileModuleInfo where
  num_imported_funcs : Nat
  num_functions : Nat
  signatures : List FuncType

/-- `ModuleMetadata` (from `serialize.rs`), restricted to the fields read
by `artifact.rs`. The `prefix` field is named `pfx` (`prefix` is a Lean
keyword). -/
structure ModuleMetadata where
  compile_info : CompileModuleInfo
  pfx : String
  function_body_lengths : List Nat

/-- Modelled from the spec: `ModuleMetadata::get_function_name` lives in
`serialize.rs`, which is missing from this snapshot; the spec's
symbol-naming contract is `wasm_function_<prefix>_<local_index>`. -/
def get_function_name (m : ModuleMetadata) (i : Nat) : String :=
  "wasm_function_" ++ m.pfx ++ "_" ++ toString i

/-- Modelled from the spec: `wasm_trampoline_<prefix>_<sig_index>`. -/
def get_function_call_trampoline_name (m : ModuleMetadata) (i : Nat) : String :=
  "wasm_trampoline_" ++ m.pfx ++ "_" ++ toString i

/-- Modelled from the spec: `wasm_dyn_trampoline_<prefix>_<func_index>`. -/
def get_dynamic_function_trampoline_name (m : ModuleMetadata) (i : Nat) : String :=
  "wasm_dyn_trampoline_" ++ m.pfx ++ "_" ++ toString i

/-- Modelled from the spec: `wasm_section_<prefix>_<section_index>`. -/
def get_section_name (m : ModuleMetadata) (i : Nat) : String :=
  "wasm_section_" ++ m.pfx ++ "_" ++ toString i

/-- The engine inner state the artifact layer touches for the claims at
hand: the process-wide signature registry (registration returns the shared
signature id). The trampoline table mutated by `add_trampoline` is not
otherwise observed. -/
structure NativeEngineInner where
  register : FuncType → Nat

/-- `NativeArtifact` (lines 42-50). Pointer tables are kept as lists in
index order (`PrimaryMap` push order). -/
structure NativeArtifact where
  sharedobject_path : String
  metadata : ModuleMetadata
  library : Option Library
  finished_functions : List FatPtr
  finished_dynamic_function_trampolines : List FatPtr
  signatures : List Nat

/-! ## Artifact construction and hydration -/

/-- `NativeArtifact::from_parts_crosscompiled` (lines 490-510). -/
def from_parts_crosscompiled (metadata : ModuleMetadata)
    (sharedobject_path : String) : Except CompileError NativeArtifact :=
  .ok { sharedobject_path := sharedobject_path
        metadata := metadata
        library := none
        finished_functions := []
        finished_dynamic_function_trampolines := []
        signatures := [] }

/-- `lib.get(name).map_err(to_compile_error)`: the libloading error message
is abstracted. -/
def lookupSymbol (lib : Library) (name : String) : Except CompileError Nat :=
  match lib.symbols name with
  | some addr => .ok addr
  | none => .error (.Codegen ("symbol lookup failed: " ++ name))

/-- First loop of `from_parts` (lines 519-538): for each local function
index and recorded body length, look the symbol up and build a fat pointer
`(address, length)`. -/
def hydrate_finished_functions (lib : Library) (metadata : ModuleMetadata) :
    Except CompileError (List FatPtr) :=
  metadata.function_body_lengths.enum.mapM
    (fun p => do
      let addr ← lookupSymbol lib (get_function_name metadata p.1)
      pure { addr := addr, len := p.2 : FatPtr })

/-- Second loop of `from_parts` (lines 540-549): look up the call
trampoline for every signature (their registration in the engine's
trampoline table is a side effect not otherwise observed here). -/
def hydrate_call_trampolines (lib : Library) (metadata : ModuleMetadata) :
    Except CompileError (List Nat) :=
  metadata.compile_info.signatures.enum.mapM
    (fun p => lookupSymbol lib (get_function_call_trampoline_name metadata p.1))

/-- Third loop of `from_parts` (lines 551-574): for the first
`num_imported_funcs` keys of `module.functions`, look the dynamic
trampoline up and build a length-zero fat pointer. -/
def hydrate_dynamic_trampolines (lib : Library) (metadata : ModuleMetadata) :
    Except CompileError (List FatPtr) :=
  ((List.range metadata.compile_info.num_functions).take
      metadata.compile_info.num_imported_funcs).mapM
    (fun i => do
      let addr ← lookupSymbol lib (get_dynamic_function_trampoline_name metadata i)
      pure { addr := addr, len := 0 : FatPtr })

/-- `NativeArtifact::from_parts` (lines 513-611): the three hydration loops
in source order, then signature registration through the engine's
registry. -/
def from_parts (engine_inner : NativeEngineInner) (metadata : ModuleMetadata)
    (sharedobject_path : String) (lib : Library) :
    Except CompileError NativeArtifact := do
  let finished_functions ← hydrate_finished_functions lib metadata
  let _ ← hydrate_call_trampolines lib metadata
  let finished_dynamic_function_trampolines ←
    hydrate_dynamic_trampolines lib metadata
  let signatures := metadata.compile_info.signatures.map engine_inner.register
  pure { sharedobject_path := sharedobject_path
         metadata := metadata
         library := some lib
         finished_functions := finished_functions
         finished_dynamic_function_trampolines := finished_dynamic_function_trampolines
         signatures := signatures }

/-- `Artifact::preinstantiate` for `NativeArtifact` (lines 755-762). -/
def preinstantiate (a : NativeArtifact) : Except InstantiationError Unit :=
  if a.library.isNone then
    .error (.Link (.Trap "Cross compiled artifacts can't be instantiated."))
  else
    .ok ()

/-! ## Deserialization paths (lines 626-705) -/

/-- Ambient behaviour of the platform around the loader: whether the temp
file in `deserialize` can be created and written, which file contents open
successfully as a dynamic library, and how `bincode::deserialize` decodes
metadata bytes. -/
structure LoaderEnv where
  tempFileOk : Bool
  libOpen : List Byte → Option Library
  bincodeDecode : List Byte → Option ModuleMetadata

/-- `NativeArtifact::deserialize_from_file_unchecked` (lines 670-705):
open the library, locate `WASMER_METADATA`, read the LEB128 length from the
11-byte view, decode the metadata bytes, and hydrate via `from_parts`.
Error messages keep their distinguishing text. -/
def deserialize_from_file_unchecked (env : LoaderEnv)
    (engine : NativeEngineInner) (path : String) (contents : List Byte) :
    Except DeserializeError NativeArtifact :=
  match env.libOpen contents with
  | none => .error (.CorruptedBinary "Library loading failed")
  | some lib =>
    match lib.wasmerMetadata with
    | none => .error (.CorruptedBinary
        "The provided object file doesn't seem to be generated by Wasmer")
    | some blob =>
      match read_metadata_bytes blob with
      | none => .error (.CorruptedBinary "Can't read metadata size")
      | some metadata_slice =>
        match env.bincodeDecode metadata_slice with
        | none => .error (.CorruptedBinary "bincode decode failed")
        | some metadata =>
          (from_parts engine metadata path lib).mapError DeserializeError.Compiler

/-- `NativeArtifact::deserialize` (lines 626-642): check the host magic,
dump the bytes into a retained temp file (`tempPath`), then load through the
unchecked path — the unchecked loader receives exactly the dumped bytes. -/
def deserialize (host : Host) (env : LoaderEnv) (engine : NativeEngineInner)
    (tempPath : String) (bytes : List Byte) :
    Except DeserializeError NativeArtifact :=
  if ¬ is_deserializable host bytes then
    .error (.Incompatible
      "The provided bytes are not in any native format Wasmer can understand")
  else if ¬ env.tempFileOk then
    .error .Io
  else
    deserialize_from_file_unchecked env engine tempPath bytes

/-- `NativeArtifact::deserialize_from_file` (lines 649-663): `read_exact`
of a 5-byte buffer fails on shorter files (an I/O-derived error, before the
magic is ever inspected); otherwise the first 5 bytes are checked against
the host magic. `contents` are the bytes of the file at `path`. -/
def deserialize_from_file (host : Host) (env : LoaderEnv)
    (engine : NativeEngineInner) (path : String) (contents : List Byte) :
    Except DeserializeError NativeArtifact :=
  if contents.length < 5 then
    .error .Io
  else if ¬ is_deserializable host (contents.take 5) then
    .error (.Incompatible
      "The provided bytes are not in any native format Wasmer can understand")
  else
    deserialize_from_file_unchecked env engine path contents

/-! ## Target triple checks in `NativeArtifact::new` (lines 151-181) -/

/-- `wasmer_compiler::BinaryFormat` (re-exported `target-lexicon`). -/
inductive BinaryFormat
  | Elf
  | Coff
  | Macho
  | Wasm
  | Unknown
deriving DecidableEq, Repr

/-- `target-lexicon` `Display` for `BinaryFormat` (external crate, needed
only to spell the error messages). -/
def BinaryFormat.display : BinaryFormat → String
  | .Elf => "elf"
  | .Coff => "coff"
  | .Macho => "macho"
  | .Wasm => "wasm"
  | .Unknown => "unknown"

/-- `wasmer_compiler::Architecture`, restricted to representative cases. -/
inductive Architecture
  | X86_64
  | Aarch64
  | X86_32
  | Arm
  | Riscv64
  | Unknown
deriving DecidableEq, Repr

/-- `target-lexicon` `Display` for `Architecture`. -/
def Architecture.display : Architecture → String
  | .X86_64 => "x86_64"
  | .Aarch64 => "aarch64"
  | .X86_32 => "i686"
  | .Arm => "arm"
  | .Riscv64 => "riscv64"
  | .Unknown => "unknown"

inductive Endianness
  | Little
  | Big
deriving DecidableEq, Repr

inductive OperatingSystem
  | Linux
  | Windows
  | Darwin
  | Ios
  | MacOSX
  | Freebsd
  | Unknown
deriving DecidableEq, Repr

/-- `Triple`: the fields `artifact.rs` reads. `endianness` models
`triple.endianness() : Result<Endianness, ()>` with `none` for the `Err(())`
case (its `{:?}` rendering is `"()"`). -/
structure Triple where
  architecture : Architecture
  binary_format : BinaryFormat
  operating_system : OperatingSystem
  endianness : Option Endianness
deriving DecidableEq, Repr

/-- `object::BinaryFormat` values chosen by lines 151-161. -/
inductive ObjBinaryFormat
  | Elf
  | MachO
  | Coff
deriving DecidableEq, Repr

/-- `object::Architecture` values chosen by lines 162-171. -/
inductive ObjArchitecture
  | X86_64
  | Aarch64
deriving DecidableEq, Repr

/-- `object::Endianness` values chosen by lines 172-181. -/
inductive ObjEndianness
  | Little
  | Big
deriving DecidableEq, Repr

/-- Lines 151-181 of `NativeArtifact::new`: the three early-return matches
on the target triple, in source order. -/
def new_check_target (t : Triple) :
    Except CompileError (ObjBinaryFormat × ObjArchitecture × ObjEndianness) := do
  let obj_binary_format ← match t.binary_format with
    | .Elf => pure ObjBinaryFormat.Elf
    | .Macho => pure ObjBinaryFormat.MachO
    | .Coff => pure ObjBinaryFormat.Coff
    | format => throw (CompileError.Codegen
        ("Binary format " ++ format.display ++ " not supported"))
  let obj_architecture ← match t.architecture with
    | .X86_64 => pure ObjArchitecture.X86_64
    | .Aarch64 => pure ObjArchitecture.Aarch64
    | architecture => throw (CompileError.Codegen
        ("Architecture " ++ architecture.display ++ " not supported"))
  let obj_endianness ← match t.endianness with
    | some .Little => pure ObjEndianness.Little
    | some .Big => pure ObjEndianness.Big
    | none => throw (CompileError.Codegen
        "Can't detect the endianness for the target: ()")
  pure (obj_binary_format, obj_architecture, obj_endianness)

/-- A binary format accepted by the first match (Elf / Macho / Coff). -/
def supportedFormat : BinaryFormat → Bool
  | .Elf | .Macho | .Coff => true
  | _ => false

/-- An architecture accepted by the second match (x86_64 / aarch64). -/
def supportedArch : Architecture → Bool
  | .X86_64 | .Aarch64 => true
  | _ => false

/-! ## The link step (lines 408-475) -/

/-- `NativeArtifact::get_default_extension` (lines 479-487). -/
def get_default_extension (t : Triple) : String :=
  match t.operating_system with
  | .Windows => "dll"
  | .Darwin | .Ios | .MacOSX => "dylib"
  | _ => "so"

/-- `std::process::Output`, restricted to what lines 450-468 read. -/
structure ProcOutput where
  success : Bool
  stdout : String
  stderr : String

/-- Lines 423-432: extra linker arguments for cross-compilation.
`tripleStr` is the `Display` rendering of the target triple. -/
def cross_compiling_args (tripleStr : String) (is_cross_compiling : Bool) :
    List String :=
  if is_cross_compiling then
    ["--target=" ++ tripleStr, "-fuse-ld=lld", "-nodefaultlibs", "-nostdlib"]
  else
    []

/-- Lines 433-437: undefined-symbol policy per OS and cross flag. -/
def target_args (os : OperatingSystem) (is_cross_compiling : Bool) :
    List String :=
  match os, is_cross_compiling with
  | .Windows, true => ["-Wl,/force:unresolved"]
  | .Windows, false => ["-Wl,-undefined,dynamic_lookup"]
  | _, _ => ["-nostartfiles", "-Wl,-undefined,dynamic_lookup"]

/-- Lines 444-448: the linker program. -/
def linkerFor (is_cross_compiling : Bool) : String :=
  if is_cross_compiling then "clang-10" else "gcc"

/-- Lines 450-459: the argument list handed to the linker subprocess, in
order. -/
def link_command_args (filepath shared_filepath : String)
    (tArgs cArgs : List String) : List String :=
  [filepath, "-o", shared_filepath] ++ tArgs ++ ["-shared"] ++ cArgs ++ ["-v"]

/-- Lines 462-468 and 475: the tail of the link step, from the subprocess
output to the result: non-zero exit embeds the trimmed (`str::trim_end`,
modelled by `trimRight`) stderr and stdout in a `Codegen` error; success
yields the shared-library path. -/
def link_output_result (output : ProcOutput) (shared_filepath : String) :
    Except CompileError String :=
  if ¬ output.success then
    .error (.Codegen ("Shared object file generator failed with:\nstderr:"
      ++ output.stderr.trimRight ++ "\nstdout:" ++ output.stdout.trimRight))
  else
    .ok shared_filepath

/-- Lines 421-468: decide native vs cross compilation, select the linker,
run it (`run` models `Command::output`: program and arguments to process
output), and finish through `link_output_result`. -/
def link_step (target_triple host_target : Triple) (tripleStr : String)
    (filepath shared_filepath : String)
    (run : String → List String → ProcOutput) : Except CompileError String :=
  let is_cross_compiling : Bool := decide (target_triple ≠ host_target)
  let cArgs := cross_compiling_args tripleStr is_cross_compiling
  let tArgs := target_args target_triple.operating_system is_cross_compiling
  let output := run (linkerFor is_cross_compiling)
    (link_command_args filepath shared_filepath tArgs cArgs)
  link_output_result output shared_filepath

/-! ## Relocation emission in the object writer (lines 299-391)

The loop walks, for each owning symbol (function or custom section) with
its text-section offset, the compiler-produced relocations, and writes an
`object::write::Relocation` per target — except `JumpTable`, which is
handled in code and emits nothing. `LibCall` targets may first add an
undefined external symbol, lazily, on first reference. -/

/-- `object::SymbolKind`, restricted to the values this file uses. -/
inductive SymbolKind
  | Text
  | Data
  | Unknown
deriving DecidableEq, Repr

/-- `object::SymbolScope`, restricted to the values this file uses. -/
inductive SymbolScope
  | Dynamic
  | Unknown
deriving DecidableEq, Repr

/-- `object::write::SymbolSection`, restricted to the values this file
uses (`add_symbol_data` moves symbols into concrete sections inside the
`object` crate, which is outside this loop). -/
inductive SymbolSection
  | Undefined
  | InSection (id : Nat)
deriving DecidableEq, Repr

/-- `object::write::Symbol`, restricted to the fields the claims read.
The `section` field is named `sec` (`section` is a Lean keyword). -/
structure ObjSymbol where
  name : String
  kind : SymbolKind
  scope : SymbolScope
  sec : SymbolSection
deriving DecidableEq, Repr

/-- `object::RelocationKind` values this file mentions (the commented-out
alternative is `Absolute`). -/
inductive RelocationKind
  | Absolute
  | PltRelative
deriving DecidableEq, Repr

/-- `object::RelocationEncoding` values this file mentions. -/
inductive RelocationEncoding
  | Generic
  | X86Branch
deriving DecidableEq, Repr

/-- `object::write::Relocation` as passed to `add_relocation`. -/
structure EmittedReloc where
  offset : Nat
  size : Nat
  kind : RelocationKind
  encoding : RelocationEncoding
  symbol : Nat
  addend : Int
deriving DecidableEq, Repr

/-- `wasmer_compiler::RelocationTarget`; the `LibCall` payload carries the
name `libcall.to_function_name()` renders to. -/
inductive RelocationTarget
  | LocalFunc (i : Nat)
  | LibCall (name : String)
  | CustomSection (i : Nat)
  | JumpTable (f : Nat) (jt : Nat)
deriving DecidableEq, Repr

/-- A compiler-produced relocation (`wasmer_compiler::Relocation`),
restricted to the fields lines 314-390 read. -/
structure SrcRelocation where
  offset : Nat
  addend : Int
  reloc_target : RelocationTarget
deriving DecidableEq, Repr

/-- The slice of `object::write::Object` state the relocation loop
touches: the symbol table (in push order; ids are indices) and the
relocations added to the text section. -/
structure ObjState where
  symbols : List ObjSymbol
  relocations : List EmittedReloc
deriving Repr

/-- `Object::symbol_id`: the id of the first symbol with the given name. -/
def symbol_id (st : ObjState) (name : String) : Option Nat :=
  st.symbols.findIdx? (fun s => s.name == name)

/-- `Object::add_symbol`: push, returning the fresh id. -/
def add_symbol (st : ObjState) (s : ObjSymbol) : ObjState × Nat :=
  ({ st with symbols := st.symbols ++ [s] }, st.symbols.length)

/-- `Object::add_relocation` on the text section (the crate-internal
failure modes of `add_relocation` are not modelled). -/
def add_relocation (st : ObjState) (r : EmittedReloc) : ObjState :=
  { st with relocations := st.relocations ++ [r] }

/-- One iteration of the loop body of lines 314-390, for a relocation
owned by the symbol whose text-section offset is `section_offset`.
`none` models the `unwrap` panics on missing function/section symbols. -/
def process_relocation (m : ModuleMetadata) (section_offset : Nat)
    (st : ObjState) (r : SrcRelocation) : Option ObjState :=
  let relocation_address := section_offset + r.offset
  match r.reloc_target with
  | .LocalFunc index =>
    match symbol_id st (get_function_name m index) with
    | none => none
    | some target_symbol =>
      some (add_relocation st
        { offset := relocation_address
          size := 32
          kind := .PltRelative
          encoding := .X86Branch
          symbol := target_symbol
          addend := r.addend })
  | .LibCall name =>
    match symbol_id st name with
    | some target_symbol =>
      some (add_relocation st
        { offset := relocation_address
          size := 32
          kind := .PltRelative
          encoding := .X86Branch
          symbol := target_symbol
          addend := r.addend })
    | none =>
      let pushed := add_symbol st
        { name := name
          kind := .Unknown
          scope := .Unknown
          sec := .Undefined }
      some (add_relocation pushed.1
        { offset := relocation_address
          size := 32
          kind := .PltRelative
          encoding := .X86Branch
          symbol := pushed.2
          addend := r.addend })
  | .CustomSection index =>
    match symbol_id st (get_section_name m index) with
    | none => none
    | some target_symbol =>
      some (add_relocation st
        { offset := relocation_address
          size := 32
          kind := .PltRelative
          encoding := .X86Branch
          symbol := target_symbol
          addend := r.addend })
  | .JumpTable _ _ => some st

/-- The inner `for r in relocations` loop of lines 314-390. -/
def process_relocations (m : ModuleMetadata) (section_offset : Nat) :
    ObjState → List SrcRelocation → Option ObjState
  | st, [] => some st
  | st, r :: rs =>
    match process_relocation m section_offset st r with
    | none => none
    | some st' => process_relocations m section_offset st' rs

/-- The symbol name a relocation target resolves to (`none` for
`JumpTable`, which emits nothing). -/
def reloc_target_name (m : ModuleMetadata) :
    RelocationTarget → Option String
  | .LocalFunc i => some (get_function_name m i)
  | .LibCall name => some name
  | .CustomSection i => some (get_section_name m i)
  | .JumpTable _ _ => none

/-- The observable content of an emitted relocation: offset, addend, size,
kind, encoding, and the name of the symbol it references, resolved in a
given (final) symbol table. -/
def emitted_info (st : ObjState) (e : EmittedReloc) :
    Nat × Int × Nat × RelocationKind × RelocationEncoding × Option String :=
  (e.offset, e.addend, e.size, e.kind, e.encoding,
    st.symbols[e.symbol]?.map ObjSymbol.name)

/-- The relocation record the claim expects for a source relocation `r`
whose owning symbol sits at `section_offset`, resolving to `name`. -/
def expected_info (section_offset : Nat) (r : SrcRelocation) (name : String) :
    Nat × Int × Nat × RelocationKind × RelocationEncoding × Option String :=
  (section_offset + r.offset, r.addend, 32, .PltRelative, .X86Branch,
    some name)

/-! ## Concrete sample inputs (used to evaluate the theorems) -/

/-- A sample engine whose registry assigns every signature the id 0. -/
def sampleEngine : NativeEngineInner := ⟨fun _ => 0⟩

/-- A sample module: one imported function, two functions overall, one
signature, and the two local function bodies have lengths 5 and 7. -/
def sampleMetadata : ModuleMetadata :=
  { compile_info := { num_imported_funcs := 1, num_functions := 2,
                      signatures := [⟨0⟩] }
    pfx := "abc"
    function_body_lengths := [5, 7] }

/-- A sample library resolving every symbol to address 0, with no
`WASMER_METADATA`. -/
def sampleLib : Library := ⟨fun _ => some 0, none⟩

/-- A loader environment where everything succeeds vacuously. -/
def sampleEnv : LoaderEnv := ⟨true, fun _ => none, fun _ => none⟩

/-- The artifact produced by `from_parts_crosscompiled` on
`sampleMetadata`. -/
def sampleCrossArtifact : NativeArtifact :=
  { sharedobject_path := "p"
    metadata := sampleMetadata
    library := none
    finished_functions := []
    finished_dynamic_function_trampolines := []
    signatures := [] }

/-- The artifact produced by `from_parts` on the sample inputs. -/
def sampleHydrated : NativeArtifact :=
  { sharedobject_path := "path"
    metadata := sampleMetadata
    library := some sampleLib
    finished_functions := [⟨0, 5⟩, ⟨0, 7⟩]
    finished_dynamic_function_trampolines := [⟨0, 0⟩]
    signatures := [0] }

/-- A supported host-style triple. -/
def sampleTriple : Triple := ⟨.X86_64, .Elf, .Linux, some .Little⟩

/-- Object state before the relocation loop: the local function 0 of
`sampleMetadata` already has its text symbol. -/
def sampleRelocStart : ObjState :=
  { symbols := [⟨"wasm_function_abc_0", .Text, .Dynamic, .Undefined⟩]
    relocations := [] }

/-- Three source relocations: a local-function call, a libcall, and a
jump-table entry. -/
def sampleRelocs : List SrcRelocation :=
  [⟨4, 2, .LocalFunc 0⟩, ⟨8, 0, .LibCall "wasmer_f32_ceil"⟩,
    ⟨12, 0, .JumpTable 0 0⟩]

/-- The object state after processing `sampleRelocs` at section offset
100. -/
def sampleRelocFinal : ObjState :=
  { symbols := [⟨"wasm_function_abc_0", .Text, .Dynamic, .Undefined⟩,
      ⟨"wasmer_f32_ceil", .Unknown, .Unknown, .Undefined⟩]
    relocations := [⟨104, 32, .PltRelative, .X86Branch, 0, 2⟩,
      ⟨108, 32, .PltRelative, .X86Branch, 1, 0⟩] }

end NearWasmer

/-! # Theorems -/

namespace NearWasmer

theorem lebRead_lebWrite (n : Nat) :
    ∀ rest : List Byte, lebRead (lebWrite n ++ rest) = some (n, rest) := by
  induction n using Nat.strong_induction_on with
  | _ n ih =>
    intro rest
    rw [lebWrite]
    by_cases h : n < 128
    · simp [h, lebRead]
    · have hdiv : n / 128 < n := Nat.div_lt_self (by omega) (by omega)
      have hbig : ¬ (n % 128 + 128 < 128) := by omega
      simp only [if_neg h, List.cons_append, lebRead, if_neg hbig,
        ih (n / 128) hdiv rest]
      have hval : n % 128 + 128 - 128 + 128 * (n / 128) = n := by
        have := Nat.mod_add_div n 128
        omega
      rw [hval]

/-- The encoding of `n < 2^(7*k)` takes at most `k` bytes (`1 ≤ k`). -/
theorem lebWrite_length_le (k : Nat) :
    ∀ n : Nat, 1 ≤ k → n < 2 ^ (7 * k) → (lebWrite n).length ≤ k := by
  induction k with
  | zero => intro n h; omega
  | succ k ihk =>
    intro n _ hn
    rw [lebWrite]
    by_cases h : n < 128
    · simp [h]
    · have hk1 : 1 ≤ k := by
        rcases Nat.eq_zero_or_pos k with hk | hk
        · subst hk
          exfalso
          have h128 : (2 : Nat) ^ (7 * 1) = 128 := by norm_num
          omega
        · exact hk
      have hdivlt : n / 128 < 2 ^ (7 * k) := by
        have hpow : (2 : Nat) ^ (7 * (k + 1)) = 2 ^ (7 * k) * 128 := by
          rw [show 7 * (k + 1) = 7 * k + 7 by ring, pow_add]
          norm_num
        omega
      have := ihk (n / 128) hk1 hdivlt
      simp only [if_neg h, List.length_cons]
      omega

theorem writeBytesInto_of_le (bs : List Byte) :
    ∀ buf : List Byte, bs.length ≤ buf.length →
      writeBytesInto bs buf = some (bs ++ buf.drop bs.length) := by
  induction bs with
  | nil => intro buf _; simp [writeBytesInto]
  | cons b bs ih =>
    intro buf hle
    cases buf with
    | nil => simp at hle
    | cons c buf =>
      simp only [List.length_cons, Nat.succ_le_succ_iff] at hle
      simp [writeBytesInto, ih buf hle]

/-- A `u64` value (`< 2^64`) encodes as unsigned LEB128 in at most 10
bytes. -/
theorem lebWrite_u64_length_le_ten (n : Nat) (h : n < 2 ^ 64) :
    (lebWrite n).length ≤ 10 := by
  refine lebWrite_length_le 10 n (by omega) ?_
  have hle : (2 : Nat) ^ 64 ≤ 2 ^ (7 * 10) :=
    Nat.pow_le_pow_right (by omega) (by omega)
  omega

/-- Claim C9: writing the serialized-metadata length as unsigned LEB128
into the pre-allocated 10-byte buffer never panics: every `u64` encodes in
at most 10 bytes, so the `expect("Should write number")` branch is
unreachable and the buffer bytes past the encoding stay zero. -/
theorem c9_length_write_never_panics (n : Nat) (h : n < 2 ^ 64) :
    (lebWrite n).length ≤ 10 ∧
    writeBytesInto (lebWrite n) (List.replicate 10 0) =
      some (lebWrite n ++ List.replicate (10 - (lebWrite n).length) 0) := by
  have hk := lebWrite_u64_length_le_ten n h
  refine ⟨hk, ?_⟩
  rw [writeBytesInto_of_le _ _ (by simpa using hk)]
  rw [List.drop_replicate]

/-- Claim C9 witness at the largest `u64` value. -/
theorem c9_witness :
    (lebWrite (2 ^ 64 - 1)).length ≤ 10 ∧
    writeBytesInto (lebWrite (2 ^ 64 - 1)) (List.replicate 10 0) =
      some (lebWrite (2 ^ 64 - 1) ++
        List.replicate (10 - (lebWrite (2 ^ 64 - 1)).length) 0) :=
  c9_length_write_never_panics (2 ^ 64 - 1) (by norm_num)

/-- Claim C1: `NativeArtifact::new` prepends the serialized metadata with a
10-byte zero-padded unsigned LEB128 length prefix, and the loader recovers
exactly the length from that prefix, hence reads back exactly the bytes
written after it — whatever bytes happen to follow the blob in memory. -/
theorem c1_metadata_roundtrip (data extra : List Byte)
    (h : data.length < 2 ^ 64) :
    ∃ pre : List Byte,
      new_metadata_length data = some (pre ++ data) ∧
      pre.length = 10 ∧
      read_metadata_bytes (pre ++ data ++ extra) = some data := by
  have hk := lebWrite_u64_length_le_ten data.length h
  refine ⟨lebWrite data.length ++
    List.replicate (10 - (lebWrite data.length).length) 0, ?_, ?_, ?_⟩
  · unfold new_metadata_length
    rw [writeBytesInto_of_le _ _ (by simpa using hk)]
    rw [List.drop_replicate]
    rfl
  · simp
    omega
  · unfold read_metadata_bytes
    rw [List.append_assoc, List.append_assoc,
      List.take_append_eq_append_take,
      List.take_of_length_le (by omega), lebRead_lebWrite]
    have hpre : lebWrite data.length ++
        (List.replicate (10 - (lebWrite data.length).length) 0 ++
          (data ++ extra))
        = (lebWrite data.length ++
            List.replicate (10 - (lebWrite data.length).length) 0) ++
          (data ++ extra) := by
      simp [List.append_assoc]
    simp only []
    rw [hpre, List.drop_left' (by simp; omega), List.take_left' rfl]

/-- Claim C1 witness: a two-byte metadata blob followed by one stray byte
round-trips. -/
theorem c1_witness :
    ∃ pre : List Byte,
      new_metadata_length [9, 8] = some (pre ++ [9, 8]) ∧
      pre.length = 10 ∧
      read_metadata_bytes (pre ++ [9, 8] ++ [77]) = some [9, 8] :=
  c1_metadata_roundtrip [9, 8] [77] (by norm_num)

/-- Claim C2 counterexample: on a 32-bit Windows host the `cfg_if!` chain
falls through to `false`, but the claim (`4D 5A` on Windows, with no
pointer-width qualification) demands `true` on bytes starting `4D 5A`. -/
theorem c2_counterexample :
    is_deserializable ⟨.windows, .w32⟩ [0x4d, 0x5a] = false ∧
    spec_is_deserializable ⟨.windows, .w32⟩ [0x4d, 0x5a] = true := by
  exact ⟨rfl, rfl⟩

/-- Claim C2 (amended): `is_deserializable` returns true exactly when the
slice starts with the host magic — ELF64 on 64-bit Linux, ELF32 on 32-bit
Linux, Mach-O on 64-bit macOS, `4D 5A` on *64-bit* Windows — and false on
every other host configuration. -/
theorem c2_is_deserializable_amended (host : Host) (bytes : List Byte) :
    is_deserializable host bytes = spec_is_deserializable_amended host bytes := by
  obtain ⟨os, width⟩ := host
  cases os <;> cases width <;> rfl

/-- Claim C3: artifacts built by `from_parts_crosscompiled` carry no
library and empty pointer/signature tables, and `preinstantiate` fails
with the cross-compilation link-trap error exactly when `library` is
`none`, succeeding otherwise. -/
theorem c3_crosscompiled_and_preinstantiate :
    (∀ (m : ModuleMetadata) (p : String) (a : NativeArtifact),
        from_parts_crosscompiled m p = .ok a →
        a.library = none ∧ a.finished_functions = [] ∧
        a.finished_dynamic_function_trampolines = [] ∧ a.signatures = []) ∧
    (∀ a : NativeArtifact,
        (preinstantiate a = .error (.Link (.Trap
            "Cross compiled artifacts can't be instantiated."))
          ↔ a.library = none) ∧
        (a.library ≠ none → preinstantiate a = .ok ())) := by
  constructor
  · intro m p a hok
    simp only [from_parts_crosscompiled, Except.ok.injEq] at hok
    subst hok
    exact ⟨rfl, rfl, rfl, rfl⟩
  · intro a
    rcases hl : a.library with _ | l <;> simp [preinstantiate, hl]

/-- Claim C3 witness at a concrete metadata and its cross-compiled
artifact. -/
theorem c3_witness :
    (sampleCrossArtifact.library = none ∧
      sampleCrossArtifact.finished_functions = [] ∧
      sampleCrossArtifact.finished_dynamic_function_trampolines = [] ∧
      sampleCrossArtifact.signatures = []) ∧
    preinstantiate sampleCrossArtifact = .error (.Link (.Trap
      "Cross compiled artifacts can't be instantiated.")) :=
  ⟨c3_crosscompiled_and_preinstantiate.1 sampleMetadata "p" sampleCrossArtifact
      rfl,
    (c3_crosscompiled_and_preinstantiate.2 sampleCrossArtifact).1.mpr rfl⟩

/-- Claim C10: a file shorter than 5 bytes makes `deserialize_from_file`
fail with the I/O-derived error from the failed `read_exact`, never
`Incompatible`; an `Incompatible` result implies at least 5 bytes, so the
magic check is reached only for such files. -/
theorem c10_short_file_is_io_error (host : Host) (env : LoaderEnv)
    (engine : NativeEngineInner) (path : String) (contents : List Byte) :
    (contents.length < 5 →
        deserialize_from_file host env engine path contents = .error .Io) ∧
    (∀ msg, deserialize_from_file host env engine path contents =
        .error (.Incompatible msg) → 5 ≤ contents.length) := by
  constructor
  · intro h
    simp [deserialize_from_file, h]
  · intro msg hmsg
    by_contra hlt
    push_neg at hlt
    simp [deserialize_from_file, hlt] at hmsg

/-- Claim C10 witness: a 3-byte file. -/
theorem c10_witness :
    deserialize_from_file ⟨.linux, .w64⟩ sampleEnv sampleEngine "p" [1, 2, 3]
      = .error .Io :=
  (c10_short_file_is_io_error ⟨.linux, .w64⟩ sampleEnv sampleEngine "p"
    [1, 2, 3]).1 (by norm_num)

/-- Claim C4: `deserialize` rejects bytes that do not start with the host
magic with `Incompatible`; on a match it hands exactly the input bytes
(the retained temp file's contents) to `deserialize_from_file_unchecked`,
and the unchecked path can never produce an `Incompatible` error — the
magic is not re-checked. -/
theorem c4_deserialize_magic_gate (host : Host) (env : LoaderEnv)
    (engine : NativeEngineInner) (tempPath : String) (bytes : List Byte) :
    (is_deserializable host bytes = false →
        deserialize host env engine tempPath bytes = .error (.Incompatible
          "The provided bytes are not in any native format Wasmer can understand")) ∧
    (is_deserializable host bytes = true → env.tempFileOk = true →
        deserialize host env engine tempPath bytes =
          deserialize_from_file_unchecked env engine tempPath bytes) ∧
    (∀ (contents : List Byte) (msg : String),
        deserialize_from_file_unchecked env engine tempPath contents ≠
          .error (.Incompatible msg)) := by
  refine ⟨?_, ?_, ?_⟩
  · intro h
    simp [deserialize, h]
  · intro h ht
    simp [deserialize, h, ht]
  · intro contents msg
    unfold deserialize_from_file_unchecked
    cases h1 : env.libOpen contents with
    | none => simp
    | some lib =>
      cases h2 : lib.wasmerMetadata with
      | none => simp [h2]
      | some blob =>
        cases h3 : read_metadata_bytes blob with
        | none => simp [h2, h3]
        | some s =>
          cases h4 : env.bincodeDecode s with
          | none => simp [h2, h3, h4]
          | some m =>
            cases h5 : from_parts engine m tempPath lib <;>
              simp [h2, h3, h4, h5, Except.mapError]

/-- Claim C4 witness: ELF64 bytes on a 64-bit Linux host reach the
unchecked loader unchanged. -/
theorem c4_witness :
    deserialize ⟨.linux, .w64⟩ sampleEnv sampleEngine "t"
        [0x7f, 0x45, 0x4c, 0x46, 2]
      = deserialize_from_file_unchecked sampleEnv sampleEngine "t"
          [0x7f, 0x45, 0x4c, 0x46, 2] :=
  (c4_deserialize_magic_gate ⟨.linux, .w64⟩ sampleEnv sampleEngine "t"
    [0x7f, 0x45, 0x4c, 0x46, 2]).2.1 rfl rfl

/-! ### `mapM` inversion helpers over `Except` -/

theorem except_mapM_ok_map {ε α β γ : Type} (f : α → Except ε β)
    (g : α → γ) (pr : β → γ) (hf : ∀ a v, f a = .ok v → pr v = g a) :
    ∀ (xs : List α) (ys : List β),
      xs.mapM f = .ok ys → ys.map pr = xs.map g := by
  intro xs
  induction xs with
  | nil =>
    intro ys hys
    simp only [List.mapM_nil, pure, Except.pure, Except.ok.injEq] at hys
    subst hys
    simp
  | cons a as ih =>
    intro ys hys
    rw [List.mapM_cons] at hys
    cases hfa : f a with
    | error e =>
      rw [hfa] at hys
      simp [Bind.bind, Except.bind] at hys
    | ok v =>
      rw [hfa] at hys
      cases hrest : as.mapM f with
      | error e =>
        rw [hrest] at hys
        simp [Bind.bind, Except.bind] at hys
      | ok zs =>
        rw [hrest] at hys
        simp only [Bind.bind, Except.bind, pure, Except.pure,
          Except.ok.injEq] at hys
        subst hys
        simp [hf a v hfa, ih zs hrest]

theorem except_mapM_ok_length {ε α β : Type} (f : α → Except ε β) :
    ∀ (xs : List α) (ys : List β),
      xs.mapM f = .ok ys → ys.length = xs.length := by
  intro xs ys hys
  have := except_mapM_ok_map f (fun _ => ()) (fun _ => ())
    (fun _ _ _ => rfl) xs ys hys
  have hlen := congrArg List.length this
  simpa using hlen

theorem except_mapM_ok_forall {ε α β : Type} (f : α → Except ε β)
    (P : β → Prop) (hf : ∀ a v, f a = .ok v → P v) :
    ∀ (xs : List α) (ys : List β),
      xs.mapM f = .ok ys → ∀ v ∈ ys, P v := by
  intro xs
  induction xs with
  | nil =>
    intro ys hys
    simp only [List.mapM_nil, pure, Except.pure, Except.ok.injEq] at hys
    subst hys
    simp
  | cons a as ih =>
    intro ys hys
    rw [List.mapM_cons] at hys
    cases hfa : f a with
    | error e =>
      rw [hfa] at hys
      simp [Bind.bind, Except.bind] at hys
    | ok v =>
      rw [hfa] at hys
      cases hrest : as.mapM f with
      | error e =>
        rw [hrest] at hys
        simp [Bind.bind, Except.bind] at hys
      | ok zs =>
        rw [hrest] at hys
        simp only [Bind.bind, Except.bind, pure, Except.pure,
          Except.ok.injEq] at hys
        subst hys
        intro v hv
        rcases List.mem_cons.mp hv with hv | hv
        · subst hv
          exact hf a v hfa
        · exact ih zs hrest v hv

/-- Claim C5: on success `from_parts` fills the functions table with one
fat pointer per local function whose length is `function_body_lengths[i]`,
appended in index order, and the dynamic-trampoline table with exactly one
zero-length fat pointer per imported-function index `0 ≤ i <
num_imported_funcs` — only imported functions populate it. -/
theorem c5_from_parts_tables (engine : NativeEngineInner)
    (m : ModuleMetadata) (path : String) (lib : Library) (a : NativeArtifact)
    (himp : m.compile_info.num_imported_funcs ≤ m.compile_info.num_functions)
    (hok : from_parts engine m path lib = .ok a) :
    a.finished_functions.map FatPtr.len = m.function_body_lengths ∧
    a.finished_dynamic_function_trampolines.length
      = m.compile_info.num_imported_funcs ∧
    ∀ p ∈ a.finished_dynamic_function_trampolines, p.len = 0 := by
  unfold from_parts at hok
  cases h1 : hydrate_finished_functions lib m with
  | error e =>
    rw [h1] at hok
    simp [Bind.bind, Except.bind] at hok
  | ok ff =>
    rw [h1] at hok
    cases h2 : hydrate_call_trampolines lib m with
    | error e =>
      rw [h2] at hok
      simp [Bind.bind, Except.bind] at hok
    | ok ts =>
      rw [h2] at hok
      cases h3 : hydrate_dynamic_trampolines lib m with
      | error e =>
        rw [h3] at hok
        simp [Bind.bind, Except.bind] at hok
      | ok fdt =>
        rw [h3] at hok
        simp only [Bind.bind, Except.bind, pure, Except.pure,
          Except.ok.injEq] at hok
        subst hok
        refine ⟨?_, ?_, ?_⟩
        · have := except_mapM_ok_map
            (fun p : Nat × Nat => do
              let addr ← lookupSymbol lib (get_function_name m p.1)
              pure { addr := addr, len := p.2 : FatPtr })
            Prod.snd FatPtr.len ?_ m.function_body_lengths.enum ff h1
          · simpa [List.enum_map_snd] using this
          · intro p v hv
            have hv' : (do
                let addr ← lookupSymbol lib (get_function_name m p.1)
                pure { addr := addr, len := p.2 : FatPtr }) = Except.ok v := hv
            cases hl : lookupSymbol lib (get_function_name m p.1) with
            | error e =>
              rw [hl] at hv'
              simp [Bind.bind, Except.bind] at hv'
            | ok addr =>
              rw [hl] at hv'
              simp only [Bind.bind, Except.bind, pure, Except.pure,
                Except.ok.injEq] at hv'
              subst hv'
              rfl
        · have hlen := except_mapM_ok_length
            (fun i : Nat => do
              let addr ← lookupSymbol lib (get_dynamic_function_trampoline_name m i)
              pure { addr := addr, len := 0 : FatPtr })
            ((List.range m.compile_info.num_functions).take
              m.compile_info.num_imported_funcs) fdt h3
          simpa [List.length_take, Nat.min_eq_left himp] using hlen
        · have := except_mapM_ok_forall
            (fun i : Nat => do
              let addr ← lookupSymbol lib (get_dynamic_function_trampoline_name m i)
              pure { addr := addr, len := 0 : FatPtr })
            (fun p => p.len = 0) ?_
            ((List.range m.compile_info.num_functions).take
              m.compile_info.num_imported_funcs) fdt h3
          · exact this
          · intro i v hv
            have hv' : (do
                let addr ← lookupSymbol lib
                  (get_dynamic_function_trampoline_name m i)
                pure { addr := addr, len := 0 : FatPtr }) = Except.ok v := hv
            cases hl : lookupSymbol lib (get_dynamic_function_trampoline_name m i) with
            | error e =>
              rw [hl] at hv'
              simp [Bind.bind, Except.bind] at hv'
            | ok addr =>
              rw [hl] at hv'
              simp only [Bind.bind, Except.bind, pure, Except.pure,
                Except.ok.injEq] at hv'
              subst hv'
              rfl

/-- Claim C5 witness on the sample module (one import, two locals of body
lengths 5 and 7). -/
theorem c5_witness :
    sampleHydrated.finished_functions.map FatPtr.len
        = sampleMetadata.function_body_lengths ∧
    sampleHydrated.finished_dynamic_function_trampolines.length
        = sampleMetadata.compile_info.num_imported_funcs ∧
    ∀ p ∈ sampleHydrated.finished_dynamic_function_trampolines, p.len = 0 :=
  c5_from_parts_tables sampleEngine sampleMetadata "path" sampleLib
    sampleHydrated (by decide) (by rfl)

/-- Claim C6 counterexample: with a supported binary format and
architecture but undetectable endianness, the `Codegen` message is
"Can't detect the endianness for the target: ()" — not the claim's
"Can't detect endianness". -/
theorem c6_counterexample :
    new_check_target ⟨.X86_64, .Elf, .Linux, none⟩
      = .error (.Codegen "Can't detect the endianness for the target: ()") ∧
    "Can't detect the endianness for the target: ()"
      ≠ "Can't detect endianness" := by
  exact ⟨rfl, by decide⟩

/-- Claim C6 (amended): the three target checks of `NativeArtifact::new`:
an unsupported binary format or architecture yields the claimed `Codegen`
message; an undetectable endianness yields the `Codegen` error
"Can't detect the endianness for the target: ()" (the full message, not
the claim's abbreviation); ELF/Mach-O/COFF with x86_64/aarch64 and a
detectable endianness pass all three checks. -/
theorem c6_new_target_checks_amended (t : Triple) :
    (supportedFormat t.binary_format = false →
        new_check_target t = .error (.Codegen
          ("Binary format " ++ t.binary_format.display ++ " not supported"))) ∧
    (supportedFormat t.binary_format = true →
      supportedArch t.architecture = false →
        new_check_target t = .error (.Codegen
          ("Architecture " ++ t.architecture.display ++ " not supported"))) ∧
    (supportedFormat t.binary_format = true →
      supportedArch t.architecture = true → t.endianness = none →
        new_check_target t = .error (.Codegen
          "Can't detect the endianness for the target: ()")) ∧
    (supportedFormat t.binary_format = true →
      supportedArch t.architecture = true →
        ∀ e, t.endianness = some e → ∃ r, new_check_target t = .ok r) := by
  obtain ⟨arch, fmt, os, en⟩ := t
  refine ⟨?_, ?_, ?_, ?_⟩
  · intro h1
    cases fmt <;> first
      | (simp [supportedFormat] at h1; done)
      | rfl
  · intro h1 h2
    cases fmt <;> first
      | (simp [supportedFormat] at h1; done)
      | (cases arch <;> first
          | (simp [supportedArch] at h2; done)
          | rfl)
  · intro h1 h2 h3
    subst h3
    cases fmt <;> first
      | (simp [supportedFormat] at h1; done)
      | (cases arch <;> first
          | (simp [supportedArch] at h2; done)
          | rfl)
  · intro h1 h2 e he
    subst he
    cases fmt <;> first
      | (simp [supportedFormat] at h1; done)
      | (cases arch <;> first
          | (simp [supportedArch] at h2; done)
          | (cases e <;> exact ⟨_, rfl⟩))

/-- Claim C6 witness: the wasm binary format is rejected with the exact
message. -/
theorem c6_witness :
    new_check_target ⟨.X86_64, .Wasm, .Linux, some .Little⟩
      = .error (.Codegen "Binary format wasm not supported") :=
  (c6_new_target_checks_amended _).1 rfl

/-- Claim C8: the link step invokes `gcc` when the target triple equals
the host triple and `clang-10` when it differs, adding
`--target=<triple>`, `-fuse-ld=lld`, `-nodefaultlibs`, `-nostdlib` to a
cross link; a non-zero linker exit yields a `Codegen` error embedding the
trimmed stderr and stdout, and a successful exit yields the shared-library
path. -/
theorem c8_link_step_behaviour (target_triple host_target : Triple)
    (tripleStr filepath shared_filepath : String)
    (run : String → List String → ProcOutput) :
    (target_triple = host_target →
        link_step target_triple host_target tripleStr filepath shared_filepath
            run
          = link_output_result
              (run "gcc" (link_command_args filepath shared_filepath
                (target_args target_triple.operating_system false) []))
              shared_filepath) ∧
    (target_triple ≠ host_target →
        link_step target_triple host_target tripleStr filepath shared_filepath
            run
          = link_output_result
              (run "clang-10" (link_command_args filepath shared_filepath
                (target_args target_triple.operating_system true)
                ["--target=" ++ tripleStr, "-fuse-ld=lld", "-nodefaultlibs",
                  "-nostdlib"]))
              shared_filepath) ∧
    (∀ out : ProcOutput, out.success = false →
        link_output_result out shared_filepath = .error (.Codegen
          ("Shared object file generator failed with:\nstderr:"
            ++ out.stderr.trimRight ++ "\nstdout:" ++ out.stdout.trimRight))) ∧
    (∀ out : ProcOutput, out.success = true →
        link_output_result out shared_filepath = .ok shared_filepath) := by
  refine ⟨?_, ?_, ?_, ?_⟩
  · intro h
    have hd : decide (target_triple ≠ host_target) = false := by
      subst h
      simp
    simp [link_step, hd, cross_compiling_args, linkerFor]
  · intro h
    have hd : decide (target_triple ≠ host_target) = true := by
      simpa using h
    simp [link_step, hd, cross_compiling_args, linkerFor]
  · intro out hout
    simp [link_output_result, hout]
  · intro out hout
    simp [link_output_result, hout]

/-- Claim C8 witness: a native link (target = host) whose linker exits
non-zero. -/
theorem c8_witness :
    link_step sampleTriple sampleTriple "x86_64-linux" "f.o" "lib.so"
        (fun _ _ => ⟨false, "out \n", "err \t"⟩)
      = link_output_result
          ((fun _ _ => (⟨false, "out \n", "err \t"⟩ : ProcOutput)) "gcc"
            (link_command_args "f.o" "lib.so"
              (target_args sampleTriple.operating_system false) []))
          "lib.so" :=
  (c8_link_step_behaviour sampleTriple sampleTriple "x86_64-linux" "f.o"
    "lib.so" (fun _ _ => ⟨false, "out \n", "err \t"⟩)).1 rfl

/-! ### Relocation-loop lemmas -/

theorem symbol_id_some_name (st : ObjState) (n : String) (i : Nat)
    (h : symbol_id st n = some i) :
    ∃ s, st.symbols[i]? = some s ∧ s.name = n := by
  unfold symbol_id at h
  rw [List.findIdx?_eq_some_iff_getElem] at h
  obtain ⟨hlt, hp, _⟩ := h
  refine ⟨st.symbols[i], List.getElem?_eq_getElem hlt, ?_⟩
  simpa using hp

theorem symbol_id_none_name (st : ObjState) (n : String)
    (h : symbol_id st n = none) :
    ∀ s ∈ st.symbols, s.name ≠ n := by
  unfold symbol_id at h
  rw [List.findIdx?_eq_none_iff] at h
  intro s hs
  simpa using h s hs

theorem process_relocation_mono (m : ModuleMetadata) (so : Nat)
    (st st₁ : ObjState) (r : SrcRelocation)
    (h : process_relocation m so st r = some st₁) :
    ∃ sy re, st₁.symbols = st.symbols ++ sy ∧
      st₁.relocations = st.relocations ++ re := by
  obtain ⟨roff, radd, rtgt⟩ := r
  cases rtgt with
  | LocalFunc i =>
    cases hs : symbol_id st (get_function_name m i) with
    | none => simp [process_relocation, hs] at h
    | some sid =>
      simp only [process_relocation, hs, Option.some.injEq] at h
      subst h
      exact ⟨[], [⟨so + roff, 32, .PltRelative, .X86Branch, sid, radd⟩],
        by simp [add_relocation], by simp [add_relocation]⟩
  | LibCall name =>
    cases hs : symbol_id st name with
    | some sid =>
      simp only [process_relocation, hs, Option.some.injEq] at h
      subst h
      exact ⟨[], [⟨so + roff, 32, .PltRelative, .X86Branch, sid, radd⟩],
        by simp [add_relocation], by simp [add_relocation]⟩
    | none =>
      simp only [process_relocation, hs, Option.some.injEq] at h
      subst h
      exact ⟨[⟨name, .Unknown, .Unknown, .Undefined⟩],
        [⟨so + roff, 32, .PltRelative, .X86Branch, st.symbols.length, radd⟩],
        by simp [add_symbol, add_relocation],
        by simp [add_symbol, add_relocation]⟩
  | CustomSection i =>
    cases hs : symbol_id st (get_section_name m i) with
    | none => simp [process_relocation, hs] at h
    | some sid =>
      simp only [process_relocation, hs, Option.some.injEq] at h
      subst h
      exact ⟨[], [⟨so + roff, 32, .PltRelative, .X86Branch, sid, radd⟩],
        by simp [add_relocation], by simp [add_relocation]⟩
  | JumpTable f jt =>
    simp only [process_relocation, Option.some.injEq] at h
    subst h
    exact ⟨[], [], by simp, by simp⟩

theorem process_relocations_mono (m : ModuleMetadata) (so : Nat) :
    ∀ (rs : List SrcRelocation) (st st' : ObjState),
      process_relocations m so st rs = some st' →
      ∃ sy re, st'.symbols = st.symbols ++ sy ∧
        st'.relocations = st.relocations ++ re := by
  intro rs
  induction rs with
  | nil =>
    intro st st' h
    simp only [process_relocations, Option.some.injEq] at h
    subst h
    exact ⟨[], [], by simp, by simp⟩
  | cons r rs ih =>
    intro st st' h
    simp only [process_relocations] at h
    cases hstep : process_relocation m so st r with
    | none => simp [hstep] at h
    | some st₁ =>
      simp only [hstep] at h
      obtain ⟨sy1, re1, hs1, hr1⟩ := process_relocation_mono m so st st₁ r hstep
      obtain ⟨sy2, re2, hs2, hr2⟩ := ih st₁ st' h
      exact ⟨sy1 ++ sy2, re1 ++ re2,
        by rw [hs2, hs1, List.append_assoc],
        by rw [hr2, hr1, List.append_assoc]⟩

/-- The relocation loop's full guarantees, by induction along the
relocation list (for the final conjunct: every libcall name referenced in
`rs` ends up in the final symbol table). -/
theorem process_relocations_spec (m : ModuleMetadata) (so : Nat) :
    ∀ (rs : List SrcRelocation) (st st' : ObjState),
      process_relocations m so st rs = some st' →
      ((st'.relocations.drop st.relocations.length).map (emitted_info st')
          = rs.filterMap (fun r =>
              (reloc_target_name m r.reloc_target).map (expected_info so r))) ∧
      (∀ s ∈ st'.symbols.drop st.symbols.length,
          s.kind = .Unknown ∧ s.scope = .Unknown ∧ s.sec = .Undefined ∧
          ∃ r ∈ rs, r.reloc_target = .LibCall s.name) ∧
      (((st'.symbols.drop st.symbols.length).map ObjSymbol.name).Nodup) ∧
      (∀ s ∈ st'.symbols.drop st.symbols.length,
          ∀ t ∈ st.symbols, s.name ≠ t.name) ∧
      (∀ nm, (∃ r ∈ rs, r.reloc_target = .LibCall nm) →
          nm ∈ st'.symbols.map ObjSymbol.name) := by
  intro rs
  induction rs with
  | nil =>
    intro st st' h
    simp only [process_relocations, Option.some.injEq] at h
    subst h
    refine ⟨?_, ?_, ?_, ?_, ?_⟩ <;> simp [List.drop_length]
  | cons r rs ih =>
    intro st st' h
    simp only [process_relocations] at h
    cases hstep : process_relocation m so st r with
    | none => simp [hstep] at h
    | some st₁ =>
      simp only [hstep] at h
      have IH := ih st₁ st' h
      obtain ⟨sy2, re2, hs2, hr2⟩ := process_relocations_mono m so rs st₁ st' h
      have hre2 : re2 = st'.relocations.drop st₁.relocations.length := by
        rw [hr2, List.drop_left]
      have hsy2 : sy2 = st'.symbols.drop st₁.symbols.length := by
        rw [hs2, List.drop_left]
      obtain ⟨roff, radd, rtgt⟩ := r
      cases rtgt with
      | JumpTable f jt =>
        have hst : st₁ = st := by
          simp only [process_relocation, Option.some.injEq] at hstep
          exact hstep.symm
        subst hst
        refine ⟨?_, ?_, IH.2.2.1, IH.2.2.2.1, ?_⟩
        · simpa [reloc_target_name] using IH.1
        · intro s hs
          obtain ⟨hk, hsc, hsec, r', hr', ht⟩ := IH.2.1 s hs
          exact ⟨hk, hsc, hsec, r', List.mem_cons_of_mem _ hr', ht⟩
        · rintro nm ⟨r', hr', ht⟩
          rcases List.mem_cons.mp hr' with he | hm
          · subst he
            simp at ht
          · exact IH.2.2.2.2 nm ⟨r', hm, ht⟩
      | LocalFunc i =>
        cases hsym : symbol_id st (get_function_name m i) with
        | none => simp [process_relocation, hsym] at hstep
        | some sid =>
          have hst1 : st₁ = add_relocation st
              ⟨so + roff, 32, .PltRelative, .X86Branch, sid, radd⟩ := by
            simp only [process_relocation, hsym, Option.some.injEq] at hstep
            exact hstep.symm
          subst hst1
          obtain ⟨s, hget, hname⟩ := symbol_id_some_name st _ sid hsym
          have hsid_lt : sid < st.symbols.length := by
            rcases List.getElem?_eq_some.mp hget with ⟨hlt, _⟩
            exact hlt
          have hsymbols : st'.symbols = st.symbols ++ sy2 := hs2
          refine ⟨?_, ?_, IH.2.2.1, IH.2.2.2.1, ?_⟩
          · have hrel : st'.relocations = st.relocations ++
                (⟨so + roff, 32, .PltRelative, .X86Branch, sid, radd⟩ :: re2) := by
              rw [hr2]
              simp [add_relocation]
            rw [hrel, List.drop_left]
            simp only [List.map_cons, reloc_target_name, List.filterMap_cons,
              Option.map_some', List.cons.injEq]
            constructor
            · unfold emitted_info expected_info
              simp only
              rw [hsymbols, List.getElem?_append_left hsid_lt, hget]
              simp [hname]
            · have htail : re2.map (emitted_info st') =
                  rs.filterMap (fun r =>
                    (reloc_target_name m r.reloc_target).map (expected_info so r)) := by
                rw [hre2]
                exact IH.1
              simpa [add_relocation] using htail
          · intro s1 hs1
            obtain ⟨hk, hsc, hsec, r', hr', ht⟩ := IH.2.1 s1 hs1
            exact ⟨hk, hsc, hsec, r', List.mem_cons_of_mem _ hr', ht⟩
          · rintro nm ⟨r', hr', ht⟩
            rcases List.mem_cons.mp hr' with he | hm
            · subst he
              simp at ht
            · exact IH.2.2.2.2 nm ⟨r', hm, ht⟩
      | CustomSection i =>
        cases hsym : symbol_id st (get_section_name m i) with
        | none => simp [process_relocation, hsym] at hstep
        | some sid =>
          have hst1 : st₁ = add_relocation st
              ⟨so + roff, 32, .PltRelative, .X86Branch, sid, radd⟩ := by
            simp only [process_relocation, hsym, Option.some.injEq] at hstep
            exact hstep.symm
          subst hst1
          obtain ⟨s, hget, hname⟩ := symbol_id_some_name st _ sid hsym
          have hsid_lt : sid < st.symbols.length := by
            rcases List.getElem?_eq_some.mp hget with ⟨hlt, _⟩
            exact hlt
          have hsymbols : st'.symbols = st.symbols ++ sy2 := hs2
          refine ⟨?_, ?_, IH.2.2.1, IH.2.2.2.1, ?_⟩
          · have hrel : st'.relocations = st.relocations ++
                (⟨so + roff, 32, .PltRelative, .X86Branch, sid, radd⟩ :: re2) := by
              rw [hr2]
              simp [add_relocation]
            rw [hrel, List.drop_left]
            simp only [List.map_cons, reloc_target_name, List.filterMap_cons,
              Option.map_some', List.cons.injEq]
            constructor
            · unfold emitted_info expected_info
              simp only
              rw [hsymbols, List.getElem?_append_left hsid_lt, hget]
              simp [hname]
            · have htail : re2.map (emitted_info st') =
                  rs.filterMap (fun r =>
                    (reloc_target_name m r.reloc_target).map (expected_info so r)) := by
                rw [hre2]
                exact IH.1
              simpa [add_relocation] using htail
          · intro s1 hs1
            obtain ⟨hk, hsc, hsec, r', hr', ht⟩ := IH.2.1 s1 hs1
            exact ⟨hk, hsc, hsec, r', List.mem_cons_of_mem _ hr', ht⟩
          · rintro nm ⟨r', hr', ht⟩
            rcases List.mem_cons.mp hr' with he | hm
            · subst he
              simp at ht
            · exact IH.2.2.2.2 nm ⟨r', hm, ht⟩
      | LibCall name0 =>
        cases hsym : symbol_id st name0 with
        | some sid =>
          have hst1 : st₁ = add_relocation st
              ⟨so + roff, 32, .PltRelative, .X86Branch, sid, radd⟩ := by
            simp only [process_relocation, hsym, Option.some.injEq] at hstep
            exact hstep.symm
          subst hst1
          obtain ⟨s, hget, hname⟩ := symbol_id_some_name st _ sid hsym
          have hsid_lt : sid < st.symbols.length := by
            rcases List.getElem?_eq_some.mp hget with ⟨hlt, _⟩
            exact hlt
          have hsymbols : st'.symbols = st.symbols ++ sy2 := hs2
          refine ⟨?_, ?_, IH.2.2.1, IH.2.2.2.1, ?_⟩
          · have hrel : st'.relocations = st.relocations ++
                (⟨so + roff, 32, .PltRelative, .X86Branch, sid, radd⟩ :: re2) := by
              rw [hr2]
              simp [add_relocation]
            rw [hrel, List.drop_left]
            simp only [List.map_cons, reloc_target_name, List.filterMap_cons,
              Option.map_some', List.cons.injEq]
            constructor
            · unfold emitted_info expected_info
              simp only
              rw [hsymbols, List.getElem?_append_left hsid_lt, hget]
              simp [hname]
            · have htail : re2.map (emitted_info st') =
                  rs.filterMap (fun r =>
                    (reloc_target_name m r.reloc_target).map (expected_info so r)) := by
                rw [hre2]
                exact IH.1
              simpa [add_relocation] using htail
          · intro s1 hs1
            obtain ⟨hk, hsc, hsec, r', hr', ht⟩ := IH.2.1 s1 hs1
            exact ⟨hk, hsc, hsec, r', List.mem_cons_of_mem _ hr', ht⟩
          · rintro nm ⟨r', hr', ht⟩
            rcases List.mem_cons.mp hr' with he | hm
            · subst he
              simp only [RelocationTarget.LibCall.injEq] at ht
              subst ht
              rw [hs2, List.map_append]
              apply List.mem_append_left
              exact List.mem_map.mpr ⟨s, List.getElem?_mem hget, hname⟩
            · exact IH.2.2.2.2 nm ⟨r', hm, ht⟩
        | none =>
          have hst1 : st₁ =
              { symbols :=
                  st.symbols ++ [⟨name0, .Unknown, .Unknown, .Undefined⟩]
                relocations := st.relocations ++
                  [⟨so + roff, 32, .PltRelative, .X86Branch,
                    st.symbols.length, radd⟩] } := by
            simp only [process_relocation, hsym, add_symbol, add_relocation,
              Option.some.injEq] at hstep
            exact hstep.symm
          subst hst1
          have hsymbols : st'.symbols = st.symbols ++
              ((⟨name0, .Unknown, .Unknown, .Undefined⟩ : ObjSymbol) :: sy2) := by
            rw [hs2]
            simp [List.append_assoc]
          have hdrop : st'.symbols.drop st.symbols.length =
              (⟨name0, .Unknown, .Unknown, .Undefined⟩ : ObjSymbol) :: sy2 := by
            rw [hsymbols, List.drop_left]
          refine ⟨?_, ?_, ?_, ?_, ?_⟩
          · have hrel : st'.relocations = st.relocations ++
                (⟨so + roff, 32, .PltRelative, .X86Branch,
                  st.symbols.length, radd⟩ :: re2) := by
              rw [hr2]
              simp [List.append_assoc]
            rw [hrel, List.drop_left]
            simp only [List.map_cons, reloc_target_name, List.filterMap_cons,
              Option.map_some', List.cons.injEq]
            constructor
            · unfold emitted_info expected_info
              simp only
              rw [hsymbols, List.getElem?_append_right (Nat.le_refl _)]
              simp
            · have htail : re2.map (emitted_info st') =
                  rs.filterMap (fun r =>
                    (reloc_target_name m r.reloc_target).map (expected_info so r)) := by
                rw [hre2]
                exact IH.1
              simpa using htail
          · intro s1 hs1
            rw [hdrop] at hs1
            rcases List.mem_cons.mp hs1 with he | hm
            · subst he
              refine ⟨rfl, rfl, rfl, ⟨roff, radd, .LibCall name0⟩,
                List.mem_cons_self _ _, rfl⟩
            · obtain ⟨hk, hsc, hsec, r', hr', ht⟩ := IH.2.1 s1 (hsy2 ▸ hm)
              exact ⟨hk, hsc, hsec, r', List.mem_cons_of_mem _ hr', ht⟩
          · rw [hdrop, List.map_cons]
            rw [List.nodup_cons]
            constructor
            · intro hmem
              obtain ⟨s1, hs1, hs1name⟩ := List.mem_map.mp hmem
              have hne := IH.2.2.2.1 s1 (hsy2 ▸ hs1)
                ⟨name0, .Unknown, .Unknown, .Undefined⟩
                (List.mem_append_right _ (by simp))
              exact hne hs1name
            · rw [hsy2]
              exact IH.2.2.1
          · intro s1 hs1 t ht
            rw [hdrop] at hs1
            rcases List.mem_cons.mp hs1 with he | hm
            · subst he
              exact (symbol_id_none_name st name0 hsym t ht).symm
            · exact IH.2.2.2.1 s1 (hsy2 ▸ hm) t (List.mem_append_left _ ht)
          · rintro nm ⟨r', hr', ht⟩
            rcases List.mem_cons.mp hr' with he | hm
            · subst he
              simp only [RelocationTarget.LibCall.injEq] at ht
              subst ht
              rw [hsymbols]
              simp
            · exact IH.2.2.2.2 nm ⟨r', hm, ht⟩

/-- Claim C7: every relocation emitted for a `LocalFunc`, `LibCall` or
`CustomSection` target is written at `section_offset + r.offset` with size
32, kind PLT-relative, encoding X86-branch and the source addend — the loop
never consults the architecture — referencing the symbol named after the
target; `JumpTable` relocations emit nothing; the only symbols the loop
adds are libcall symbols with kind and scope `Unknown` and section
`Undefined`, each introduced at most once and only when no symbol of that
name already existed; a libcall name with no pre-existing symbol resolves
to such an undefined external symbol. -/
theorem c7_relocation_emission (m : ModuleMetadata) (so : Nat)
    (st st' : ObjState) (rs : List SrcRelocation)
    (h : process_relocations m so st rs = some st') :
    ((st'.relocations.drop st.relocations.length).map (emitted_info st')
        = rs.filterMap (fun r =>
            (reloc_target_name m r.reloc_target).map (expected_info so r))) ∧
    (∀ s ∈ st'.symbols.drop st.symbols.length,
        s.kind = .Unknown ∧ s.scope = .Unknown ∧ s.sec = .Undefined ∧
        ∃ r ∈ rs, r.reloc_target = .LibCall s.name) ∧
    (((st'.symbols.drop st.symbols.length).map ObjSymbol.name).Nodup) ∧
    (∀ s ∈ st'.symbols.drop st.symbols.length,
        ∀ t ∈ st.symbols, s.name ≠ t.name) ∧
    (∀ nm, (∃ r ∈ rs, r.reloc_target = .LibCall nm) →
        (∀ t ∈ st.symbols, t.name ≠ nm) →
        ∃ i s, symbol_id st' nm = some i ∧ st'.symbols[i]? = some s ∧
          s.name = nm ∧ s.kind = .Unknown ∧ s.scope = .Unknown ∧
          s.sec = .Undefined) := by
  have H := process_relocations_spec m so rs st st' h
  refine ⟨H.1, H.2.1, H.2.2.1, H.2.2.2.1, ?_⟩
  intro nm hex hfresh
  have hmem := H.2.2.2.2 nm hex
  obtain ⟨s0, hs0mem, hs0name⟩ := List.mem_map.mp hmem
  set i := st'.symbols.findIdx (fun s => s.name == nm) with hidef
  have hi : symbol_id st' nm = some i := by
    unfold symbol_id
    rw [hidef]
    exact List.findIdx?_eq_some_of_exists ⟨s0, hs0mem, by simp [hs0name]⟩
  obtain ⟨s, hgets, hsname⟩ :=
    symbol_id_some_name st' nm i hi
  obtain ⟨sy, re, hsy, hre⟩ := process_relocations_mono m so rs st st' h
  have hilen : st.symbols.length ≤ i := by
    by_contra hlt
    push_neg at hlt
    have hsame : st'.symbols[i]? = st.symbols[i]? := by
      rw [hsy]
      exact List.getElem?_append_left hlt
    rw [hsame] at hgets
    exact hfresh s (List.getElem?_mem hgets) hsname
  have hdrop : st'.symbols.drop st.symbols.length = sy := by
    rw [hsy, List.drop_left]
  have hsin : s ∈ sy := by
    have hsame : st'.symbols[i]? = sy[i - st.symbols.length]? := by
      rw [hsy]
      exact List.getElem?_append_right hilen
    rw [hsame] at hgets
    exact List.getElem?_mem hgets
  have hprops := H.2.1 s (by rw [hdrop]; exact hsin)
  exact ⟨_, s, hi, hgets, hsname, hprops.1, hprops.2.1, hprops.2.2.1⟩

/-- Claim C7 witness: the emitted relocations for a local-function call, a
libcall, and a jump table at section offset 100 (conjunct one of the claim
theorem, evaluated on concrete data). -/
theorem c7_witness :
    (sampleRelocFinal.relocations.drop
        sampleRelocStart.relocations.length).map (emitted_info sampleRelocFinal)
      = sampleRelocs.filterMap (fun r =>
          (reloc_target_name sampleMetadata r.reloc_target).map
            (expected_info 100 r)) :=
  (c7_relocation_emission sampleMetadata 100 sampleRelocStart
    sampleRelocFinal sampleRelocs (by rfl)).1

end NearWasmer
